import Mathlib

/-!
# Verification of the TR MIDI Router arpeggiation engine

A shallow embedding of the core of `midi_router.py`: the division resolver,
the chord buffer operations, the configuration loader, the per-pattern step
sequencer with its gate/tie note-lifecycle machine, and the event dispatch
loop of `main`.  Python floats appearing in the engine (`tick`, `gate_left`,
`pending_left`) only ever hold values of the form `n` or `p·g/100` for small
integers, on which float arithmetic is exact or truncation coincides with
rational truncation, so they are embedded as `ℚ`; `random.randint(a, b)` is
embedded as an oracle stream of naturals reduced into `[a, b]`, with the
stream position threaded through the computation.
-/

namespace TR

/-- A MIDI message sent on a pattern output.  The source only ever sends
`note_on` (with a velocity) and `note_off` (always velocity 0). -/
inductive Msg
  | noteOn (note : Nat) (vel : Int)
  | noteOff (note : Nat)
deriving DecidableEq, Repr

/-- A raw entry of a pattern's `steps` array: the loader keeps the JSON
values as-is, so an entry is either a string (such as "X" or "R") or an
integer. -/
inductive StepV
  | str (s : String)
  | int (n : Int)
deriving DecidableEq, Repr

/-- A loaded entry of the `velocity` array: the literal string "R", or a
clamped integer. -/
inductive VelV
  | rnd
  | fixed (n : Int)
deriving DecidableEq, Repr

/-- A loaded entry of the `gate` array: the tie marker "T", or a clamped
integer percentage. -/
inductive GateV
  | tie
  | pct (n : Int)
deriving DecidableEq, Repr

/-- `PPQN = 24`: MIDI clock pulses per quarter note. -/
def PPQN : Nat := 24

/-- `MAX_NOTES = 8`: the chord size cap. -/
def MAX_NOTES : Nat := 8

/-- ASCII lowercasing of one character, as Python's `str.lower` acts on the
configuration strings (they are ASCII). -/
def lowerChar (c : Char) : Char :=
  if 'A' ≤ c ∧ c ≤ 'Z' then Char.ofNat (c.toNat + 32) else c

/-- Python's `str.strip` whitespace test, restricted to the ASCII whitespace
that can occur in a configuration string. -/
def isSpaceChar (c : Char) : Bool :=
  c = ' ' ∨ c = '\t' ∨ c = '\n' ∨ c = '\r'

/-- Strip leading and trailing whitespace from a character list. -/
def trimChars (cs : List Char) : List Char :=
  ((cs.dropWhile isSpaceChar).reverse.dropWhile isSpaceChar).reverse

/-- `DIVISION_BASE`: the base pulses-per-step table of `midi_router.py`
(lines 105-112), on the trimmed lower-cased character list. -/
def DIVISION_BASE (s : List Char) : Option Nat :=
  if s = "1".data then some (4 * PPQN)
  else if s = "1/2".data then some (2 * PPQN)
  else if s = "1/4".data then some PPQN
  else if s = "1/8".data then some (PPQN / 2)
  else if s = "1/16".data then some (PPQN / 4)
  else if s = "1/32".data then some (PPQN / 8)
  else none

/-- `parse_division` (lines 115-132).  The source computes
`int(pulses * 1.5)`, `int(pulses * 2 / 3)` and `int(pulses * 4 / 5)` on
floats; for every base value of the table those float products truncate to
exactly the floor of the rational value, which is the natural-number
division written here.  String operations are carried out on the
character list so that the definition evaluates structurally. -/
def parse_division (s : String) : Nat :=
  let cs := (trimChars s.data).map lowerChar
  let dotted := cs.getLast? = some 'd'
  let triplet := cs.getLast? = some 't'
  let quint := cs.getLast? = some 'q'
  let sBase := if dotted || triplet || quint then cs.dropLast else cs
  let pulses := (DIVISION_BASE sBase).getD (PPQN / 4)
  let pulses :=
    if dotted then pulses * 3 / 2
    else if triplet then pulses * 2 / 3
    else if quint then pulses * 4 / 5
    else pulses
  max 1 pulses

/-- `add_note` (lines 293-301): insert into the held chord, keep it sorted
ascending, truncate to the lowest `MAX_NOTES` notes.  The source appends and
calls Python's `list.sort`; on a list of naturals every correct sort agrees,
and `List.insertionSort` is used here so that the definition evaluates
structurally. -/
def add_note (chord : List Nat) (note : Nat) : List Nat :=
  if note ∈ chord then chord
  else (List.insertionSort (· ≤ ·) (chord ++ [note])).take MAX_NOTES

/-- `remove_note` (lines 304-309): remove the first occurrence if present,
silently do nothing otherwise. -/
def remove_note (chord : List Nat) (note : Nat) : List Nat :=
  chord.erase note

/-- The raw JSON object for one pattern, as consumed by `load_config`
(lines 161-274).  `none`/`[]` model an absent key.  Numeric entries are
modeled as the integers they parse to (entries on which the source's
`int(...)` fails take the same defaults as absent entries and are outside
the modeled domain); the raw `length` value is a natural number. -/
structure RawPattern where
  lengthOpt : Option Nat
  steps : List StepV
  velocity : List VelV
  vrandom : List Int
  sprob : List Int
  soct : List Int
  gate : List GateV
  oktawa : Int
  division : String
  enabled : Option Bool
deriving DecidableEq, Repr

/-- `max lo (min hi v)`: the clamp used throughout `load_config`. -/
def clampI (lo hi v : Int) : Int := max lo (min hi v)

/-- Right-pad a truncated list to `n` entries with the default `d`
(the `[:length]` slice followed by `+= [default] * (length - len)` of
`load_config`). -/
def padTo (xs : List α) (n : Nat) (d : α) : List α :=
  xs ++ List.replicate (n - xs.length) d

/-- `default_pattern` (lines 161-167): ascending 1..8 when the pattern name
contains "1", descending 8..1 otherwise. -/
def default_steps (name : String) : List StepV :=
  if name.contains '1' then (List.range 8).map fun i => StepV.int ((i : Int) + 1)
  else (List.range 8).map fun i => StepV.int (8 - (i : Int))

/-- The loaded configuration of one pattern (the dict built at
lines 264-274). -/
structure Cfg where
  length : Nat
  steps : List StepV
  octave : Int
  velocity : List VelV
  vrandom : List Int
  sprob : List Int
  soct : List Int
  gate : List GateV
  pulses : Nat
deriving DecidableEq, Repr

/-- The per-pattern body of `load_config` (lines 174-274) for one pattern
whose raw JSON object was found.  Note which fields are *not* consulted:
the raw `enabled` flag and any "r-oct" key have no counterpart here because
`load_config` never reads them. -/
def load_pattern (name : String) (p : RawPattern) : Cfg :=
  -- line 174: length defaults to the length of the raw steps array
  let length0 := p.lengthOpt.getD p.steps.length
  -- line 175: steps are truncated to 16 entries and never padded
  let steps0 := p.steps.take 16
  -- lines 176, 267: global octave, clamped to [-5, 5]
  let octave := clampI (-5) 5 p.oktawa
  -- lines 178-180: an empty steps array falls back to the default pattern
  let steps1 := if steps0.isEmpty then default_steps name else steps0
  let length1 := if steps0.isEmpty then (default_steps name).length else length0
  -- lines 181-196: velocity entries, "R" kept, integers clamped to [1, 127]
  let velocity :=
    if p.velocity.isEmpty then List.replicate length1 (VelV.fixed 100)
    else padTo ((p.velocity.take length1).map fun v =>
      match v with
      | VelV.rnd => VelV.rnd
      | VelV.fixed n => VelV.fixed (clampI 1 127 n)) length1 (VelV.fixed 100)
  -- lines 198-211: v-random entries clamped to [0, 100], default 0
  let vrandom :=
    if p.vrandom.isEmpty then List.replicate length1 0
    else padTo ((p.vrandom.take length1).map fun v => clampI 0 100 v) length1 0
  -- lines 213-226: s-prob entries clamped to [0, 100], default 100
  let sprob :=
    if p.sprob.isEmpty then List.replicate length1 100
    else padTo ((p.sprob.take length1).map fun v => clampI 0 100 v) length1 100
  -- lines 228-241: s-oct entries clamped to [-2, 2], default 0
  let soct :=
    if p.soct.isEmpty then List.replicate length1 0
    else padTo ((p.soct.take length1).map fun v => clampI (-2) 2 v) length1 0
  -- lines 246-262: gate entries, "T" kept, integers clamped to [1, 100]
  let gate :=
    if p.gate.isEmpty then List.replicate length1 (GateV.pct 100)
    else padTo ((p.gate.take length1).map fun v =>
      match v with
      | GateV.tie => GateV.tie
      | GateV.pct n => GateV.pct (clampI 1 100 n)) length1 (GateV.pct 100)
  -- lines 243-244, 264-274
  { length := max 1 (min 16 length1)
    steps := steps1
    octave := octave
    velocity := velocity
    vrandom := vrandom
    sprob := sprob
    soct := soct
    gate := gate
    pulses := parse_division p.division }

/-- ASCII uppercasing of the characters of a string
(Python's `step_val.upper()` / `gate_val.upper()` on the config strings). -/
def upperChars (s : String) : List Char :=
  s.data.map fun c => if 'a' ≤ c ∧ c ≤ 'z' then Char.ofNat (c.toNat - 32) else c

/-- Parse a plain (optionally negated) digit string, as Python's `int(...)`
does on the numeric step strings of the modeled domain; `none` models the
`ValueError` that `int(...)` raises otherwise. -/
def parseIntChars (cs : List Char) : Option Int :=
  let digits (ds : List Char) : Option Nat :=
    if ds.isEmpty then none
    else ds.foldl (fun acc c =>
      match acc with
      | none => none
      | some n => if c.isDigit then some (n * 10 + (c.toNat - 48)) else none)
      (some 0)
  match cs with
  | '-' :: rest => (digits rest).map fun n => -(n : Int)
  | _ => (digits cs).map fun n => (n : Int)

/-- The mutable runtime of one pattern (the per-pattern dict created at
lines 346-357): pulse accumulator, step cursor, the per-cycle random caches,
the currently sounding note, the gate countdown, the tie flag, and the
pending note-off with its countdown.

The source stores `tick`, `gate_left` and `pending_left` as floats, but on
every reachable state their values are integer multiples of 1/100 (the only
non-integer producer is `pulses * gate_pct / 100.0`), and on such values the
source's float arithmetic and comparisons agree with exact rational
arithmetic; they are therefore embedded as integers scaled by 100.  The
sustain sentinel `-1.0` of `gate_left` is `-100` here. -/
structure PatRT where
  tick : Int
  step : Nat
  rand : List (Option Int)
  randVel : List (Option Int)
  noteOn : Option Nat
  gateLeft : Int
  tiePrev : Bool
  pendingOff : Option Nat
  pendingLeft : Int
deriving DecidableEq, Repr

/-- The freshly initialized pattern runtime (lines 347-357). -/
def freshRT : PatRT :=
  { tick := 0, step := 0, rand := [], randVel := [], noteOn := none
    gateLeft := 0, tiePrev := false, pendingOff := none, pendingLeft := 0 }

/-- Reset of the counters performed on Start, chord-enter and chord-empty
(lines 666-670, 708-712, 717-721): pulse accumulator, step cursor and the
random caches; the sounding-note, gate and pending fields are *kept*. -/
def reset_counters (rt : PatRT) : PatRT :=
  { rt with tick := 0, step := 0, rand := [], randVel := [] }

/-- `random.randint a b`: uniform draw in `[a, b]`, embedded as the next
oracle value reduced into range; `none` models the `ValueError` raised when
`b < a`.  Returns the draw and the advanced stream position. -/
def randint (g : Nat → Nat) (k : Nat) (a b : Int) : Option (Int × Nat) :=
  if b < a then none
  else some (a + (g k : Int) % (b - a + 1), k + 1)

/-- The probability gate of line 538: `random.randint(1, 100) > sprob` means
the step is suppressed. -/
def prob_suppress (g : Nat → Nat) (k : Nat) (sp : Int) : Bool :=
  decide ((1 + (g k % 100 : Nat) : Int) > sp)

/-- The note-on / note-off emission logic of the clock-driven fire
(lines 596-639): the tie branch sustains or overlaps, the regular branch
retriggers, and the gate countdown is re-armed. -/
def emit_gate_step (cfg : Cfg) (rt : PatRT) (note : Nat) (vel : Int)
    (gateVal : GateV) : PatRT × List Msg :=
  match gateVal with
  | GateV.tie =>
    -- lines 597-613: sustain, or 1-tick overlap towards a different note
    let res :=
      match rt.noteOn with
      | none => ({ rt with noteOn := some note }, [Msg.noteOn note vel])
      | some m =>
        if m ≠ note then
          ({ rt with pendingOff := some m, pendingLeft := 100, noteOn := some note },
           [Msg.noteOn note vel])
        else (rt, [])
    ({ res.1 with gateLeft := -100, tiePrev := true }, res.2)
  | GateV.pct gp =>
    -- lines 615-639: regular gate step
    let res :=
      match rt.noteOn with
      | none => ({ rt with noteOn := some note }, [Msg.noteOn note vel])
      | some m =>
        if m = note then (rt, [])
        else if rt.tiePrev then
          ({ rt with pendingOff := some m, pendingLeft := 100, noteOn := some note },
           [Msg.noteOn note vel])
        else
          ({ rt with noteOn := some note }, [Msg.noteOff m, Msg.noteOn note vel])
    -- `pulses * gate_pct / 100.0`, scaled by 100, is exactly `pulses * gp`
    ({ res.1 with gateLeft := (cfg.pulses : Int) * gp, tiePrev := false },
     res.2)

/-- The velocity resolution of the clock-driven fire (lines 563-586):
base velocity from the `velocity` entry (with the per-cycle cache for "R"),
then the `v-random` jitter.  `none` models a fault (cache index error or an
empty randint range). -/
def resolve_vel (cfg : Cfg) (rt : PatRT) (stepPos : Nat) (g : Nat → Nat)
    (k : Nat) : Option (Int × PatRT × Nat) :=
  -- lines 563-564: guarded entry reads
  let velVal : VelV :=
    if cfg.velocity.isEmpty then VelV.fixed 100
    else (cfg.velocity.get? (stepPos % cfg.velocity.length)).getD (VelV.fixed 100)
  let vrandVal : Int :=
    if cfg.vrandom.isEmpty then 0
    else (cfg.vrandom.get? (stepPos % cfg.vrandom.length)).getD 0
  -- lines 566-576: base velocity, "R" cached per cycle
  let baseRes : Option (Option Int × PatRT × Nat) :=
    match velVal with
    | VelV.rnd =>
      let cache :=
        if rt.randVel.length < cfg.velocity.length then
          rt.randVel ++ List.replicate (cfg.velocity.length - rt.randVel.length) none
        else rt.randVel
      match cache.get? stepPos with
      | none => none
      | some (some v) => some (some v, { rt with randVel := cache }, k)
      | some none =>
        match randint g k 1 127 with
        | none => none
        | some (v, k1) =>
          some (some v, { rt with randVel := cache.set stepPos (some v) }, k1)
    | VelV.fixed n => some (some n, rt, k)
  match baseRes with
  | none => none
  | some (baseO, rt1, k1) =>
    let base := baseO.getD 64
    -- lines 579-586: v-random jitter
    let velRes : Option (Int × Nat) :=
      if vrandVal ≥ 100 then randint g k1 1 127
      else if vrandVal > 0 then
        let span := vrandVal * 127 / 100
        let half := span / 2
        randint g k1 (max 1 (base - half)) (min 127 (base + half))
      else some (base, k1)
    match velRes with
    | none => none
    | some (vel, k2) => some (vel, rt1, k2)

/-- The salvage of lines 559-560: a missing or out-of-range chord index is
replaced by a fresh uniform draw in [1, chord size]. -/
def salvage_idx (g : Nat → Nat) (k : Nat) (ln : Int) (idxO : Option Int) :
    Option (Int × Nat) :=
  match idxO with
  | none => randint g k 1 ln
  | some i => if 1 ≤ i ∧ i ≤ ln then some (i, k) else randint g k 1 ln

/-- The tail of the clock-driven fire, from the salvage of the resolved
chord index onward (lines 559-642): salvage an out-of-range index with a
fresh draw, compute the note number from the chord, the global octave and
the per-step octave, resolve velocity and gate, skip emission (without
advancing the cursor) when the note leaves [0, 127], otherwise emit through
the gate/tie machine and advance the cursor. -/
def clockFireIdx (cfg : Cfg) (chord : List Nat) (rt : PatRT) (g : Nat → Nat)
    (k : Nat) (stepPos : Nat) (idxO : Option Int) :
    Option (PatRT × Nat × List Msg) :=
  let ln : Int := chord.length
  match salvage_idx g k ln idxO with
  | none => none
  | some (idx, k1) =>
    -- line 561: note number; an empty s-oct list is the source's
    -- ZeroDivisionError on `step_pos % len(socts)`
    match cfg.soct.get? (stepPos % cfg.soct.length) with
    | none => none
    | some so =>
      let note : Int := (chord.getD (idx - 1).toNat 0 : Int) + (cfg.octave + so) * 12
      match resolve_vel cfg rt stepPos g k1 with
      | none => none
      | some (vel, rt1, k2) =>
        -- lines 589-590: gate entry
        let gateVal : GateV :=
          if cfg.gate.isEmpty then GateV.pct 100
          else (cfg.gate.get? (stepPos % cfg.gate.length)).getD (GateV.pct 100)
        -- line 593: out-of-range note is skipped, cursor not advanced
        if note < 0 ∨ 127 < note then some (rt1, k2, [])
        else
          let em := emit_gate_step cfg rt1 note.toNat vel gateVal
          -- lines 641-642: advance the cursor
          some ({ em.1 with step := (em.1.step + 1) % cfg.length }, k2, em.2)

/-- One clock-driven step fire (lines 523-642): reset the per-cycle caches
at the start of a cycle, apply the probability gate, resolve the step
descriptor (rest / cached random / integer), then `clockFireIdx`.  `none`
models a fault of the source (an index error or an unparseable value). -/
def clockFire (cfg : Cfg) (chord : List Nat) (rt0 : PatRT) (g : Nat → Nat)
    (k : Nat) : Option (PatRT × Nat × List Msg) :=
  let plen := cfg.length
  let stepPos := rt0.step % plen
  -- lines 533-535: reset the random caches at the start of a cycle
  let rt :=
    if stepPos = 0 then
      { rt0 with rand := List.replicate cfg.steps.length none
                 randVel := List.replicate cfg.velocity.length none }
    else rt0
  -- line 538: probability check; an empty s-prob list is the source's
  -- ZeroDivisionError on `step_pos % len(sprobs)`
  match cfg.sprob.get? (stepPos % cfg.sprob.length) with
  | none => none
  | some sp =>
    if prob_suppress g k sp then
      some ({ rt with step := (rt.step + 1) % plen }, k + 1, [])
    else
      -- line 542: unguarded `steps[step_pos]`; IndexError when the steps
      -- array is shorter than the pattern length
      match cfg.steps.get? stepPos with
      | none => none
      | some sv =>
        match sv with
        | StepV.str s =>
          -- lines 545-555
          if upperChars s = "X".data then
            some ({ rt with step := (rt.step + 1) % plen }, k + 1, [])
          else
            let popd : Option (List (Option Int) × Nat) :=
              if upperChars s = "R".data then
                let cache :=
                  if rt.rand.length < cfg.steps.length then
                    rt.rand ++ List.replicate (cfg.steps.length - rt.rand.length) none
                  else rt.rand
                match cache.get? stepPos with
                | none => none
                | some (some _) => some (cache, k + 1)
                | some none =>
                  match randint g (k + 1) 1 chord.length with
                  | none => none
                  | some (v, k2) => some (cache.set stepPos (some v), k2)
              else some (rt.rand, k + 1)
            match popd with
            | none => none
            | some (cache, k2) =>
              -- line 555: every non-rest string step reads the cache slot
              match cache.get? stepPos with
              | none => none
              | some idxO =>
                clockFireIdx cfg chord { rt with rand := cache } g k2 stepPos idxO
        | StepV.int n =>
          -- line 557
          clockFireIdx cfg chord rt g (k + 1) stepPos (some n)

/-- One clock pulse for one pattern before the countdown tail
(lines 516-521): advance the pulse accumulator and fire when it reaches the
division threshold.  The source compares `tick + 1e-9 < pulses` on floats
whose reachable values are integers, so the epsilon is immaterial; in the
scaled embedding one pulse is `100` and the threshold is `pulses * 100`. -/
def clock_pattern (cfg : Cfg) (chord : List Nat) (rt : PatRT) (g : Nat → Nat)
    (k : Nat) : Option (PatRT × Nat × List Msg) :=
  let rt1 := { rt with tick := rt.tick + 100 }
  if rt1.tick < (cfg.pulses : Int) * 100 then some (rt1, k, [])
  else clockFire cfg chord { rt1 with tick := rt1.tick - (cfg.pulses : Int) * 100 } g k

/-- The per-pulse countdown tail of one pattern (lines 645-660): gate
countdown with note-off on expiry (the sustain sentinel `-1` never
decrements), then the pending-off countdown. -/
def gate_tail (rt : PatRT) : PatRT × List Msg :=
  let res :=
    match rt.noteOn with
    | some n =>
      if rt.gateLeft > 0 then
        let gl := rt.gateLeft - 100
        if gl ≤ 0 then ({ rt with noteOn := none, gateLeft := 0 }, [Msg.noteOff n])
        else ({ rt with gateLeft := gl }, [])
      else (rt, [])
    | none => (rt, [])
  match res.1.pendingOff with
  | some p =>
    let pl := res.1.pendingLeft - 100
    if pl ≤ 0 then
      ({ res.1 with pendingOff := none, pendingLeft := pl }, res.2 ++ [Msg.noteOff p])
    else ({ res.1 with pendingLeft := pl }, res.2)
  | none => res

/-- The fire loop over the configured patterns on one clock pulse
(lines 515-642), in configuration order. -/
def clock_fires : List Cfg → List PatRT → List Nat → (Nat → Nat) → Nat →
    Option (List PatRT × Nat × List Msg)
  | [], [], _, _, k => some ([], k, [])
  | c :: cs, rt :: rts, chord, g, k =>
    match clock_pattern c chord rt g k with
    | none => none
    | some (rt1, k1, ms) =>
      match clock_fires cs rts chord g k1 with
      | none => none
      | some (rts1, k2, ms2) => some (rt1 :: rts1, k2, ms ++ ms2)
  | _, _, _, _, _ => none

/-- The countdown-tail loop over all patterns (lines 645-660). -/
def clock_tails : List PatRT → List PatRT × List Msg
  | [] => ([], [])
  | rt :: rts =>
    let a := gate_tail rt
    let b := clock_tails rts
    (a.1 :: b.1, a.2 ++ b.2)

/-- Emit a note-off for every non-null `last_played` entry and clear it
(the loop used at lines 503-508, 680-684 and 703-707). -/
def off_last : List (Option Nat) → List (Option Nat) × List Msg
  | [] => ([], [])
  | some n :: ls =>
    let r := off_last ls
    (none :: r.1, Msg.noteOff n :: r.2)
  | none :: ls =>
    let r := off_last ls
    (none :: r.1, r.2)

/-- `play_pattern_step` (lines 363-447): the immediate step fire used on
Start and on chord-enter.  Unlike the clock-driven fire it has *no*
probability gate, *no* salvage of an out-of-range index (it returns), *no*
per-step octave offset, an uncached velocity draw for "R", and it emits its
note-on unconditionally, without the tie/overlap machine.  Returns the
runtime, the stream position, the `last_played` update (when a note was
sent) and the emissions; `none` models a fault. -/
def play_pattern_step (cfg : Cfg) (chord : List Nat) (rt0 : PatRT)
    (g : Nat → Nat) (k : Nat) :
    Option (PatRT × Nat × Option Nat × List Msg) :=
  let plen := cfg.length
  -- line 373
  if plen = 0 ∨ cfg.steps.isEmpty ∨ chord.isEmpty then some (rt0, k, none, [])
  else
    let stepPos := rt0.step % plen
    -- lines 379-381
    let rt :=
      if stepPos = 0 then
        { rt0 with rand := List.replicate cfg.steps.length none
                   randVel := List.replicate cfg.velocity.length none }
      else rt0
    let ln : Int := chord.length
    -- line 384: unguarded `steps[step_pos]`
    match cfg.steps.get? stepPos with
    | none => none
    | some sv =>
      -- lines 387-399
      match sv with
      | StepV.str s =>
        if upperChars s = "X".data then
          -- line 389: rest, nothing sent, cursor *not* advanced
          some (rt, k, none, [])
        else if upperChars s = "R".data then
          -- lines 390-395: per-cycle random cache
          let cache :=
            if rt.rand.length < cfg.steps.length then
              rt.rand ++ List.replicate (cfg.steps.length - rt.rand.length) none
            else rt.rand
          match cache.get? stepPos with
          | none => none
          | some (some v) =>
            play_step_idx cfg chord { rt with rand := cache } g k stepPos (some v)
          | some none =>
            match randint g k 1 ln with
            | none => none
            | some (v, k1) =>
              play_step_idx cfg chord { rt with rand := cache.set stepPos (some v) }
                g k1 stepPos (some v)
        else
          -- line 397: `int(step_val)` on the raw string
          match parseIntChars s.data with
          | none => none
          | some n => play_step_idx cfg chord rt g k stepPos (some n)
      | StepV.int n =>
        -- line 399
        play_step_idx cfg chord rt g k stepPos (some n)
where
  /-- Lines 401-447: range check on the index (return, no salvage),
  velocity, note number without the per-step octave, range check, emission
  and gate arming. -/
  play_step_idx (cfg : Cfg) (chord : List Nat) (rt : PatRT) (g : Nat → Nat)
      (k : Nat) (stepPos : Nat) (idxO : Option Int) :
      Option (PatRT × Nat × Option Nat × List Msg) :=
    let ln : Int := chord.length
    match idxO with
    | none => some (rt, k, none, [])
    | some idx =>
      -- line 401
      if ¬ (1 ≤ idx ∧ idx ≤ ln) then some (rt, k, none, [])
      else
        -- lines 404-420: velocity (fresh draw for "R", no cache)
        let velVal : VelV :=
          if cfg.velocity.isEmpty then VelV.fixed 100
          else (cfg.velocity.get? (stepPos % cfg.velocity.length)).getD (VelV.fixed 100)
        let vrandVal : Int :=
          if cfg.vrandom.isEmpty then 0
          else (cfg.vrandom.get? (stepPos % cfg.vrandom.length)).getD 0
        let baseRes : Option (Int × Nat) :=
          match velVal with
          | VelV.rnd => randint g k 1 127
          | VelV.fixed n => some (n, k)
        match baseRes with
        | none => none
        | some (base, k1) =>
          let velRes : Option (Int × Nat) :=
            if vrandVal ≥ 100 then randint g k1 1 127
            else if vrandVal > 0 then
              let span := vrandVal * 127 / 100
              let half := span / 2
              randint g k1 (max 1 (base - half)) (min 127 (base + half))
            else some (base, k1)
          match velRes with
          | none => none
          | some (vel, k2) =>
            -- line 423: note number, global octave only
            let note : Int := (chord.getD (idx - 1).toNat 0 : Int) + cfg.octave * 12
            -- line 424
            if ¬ (0 ≤ note ∧ note ≤ 127) then some (rt, k2, none, [])
            else
              -- lines 427-447
              let gateVal : GateV :=
                if cfg.gate.isEmpty then GateV.pct 100
                else (cfg.gate.get? (stepPos % cfg.gate.length)).getD (GateV.pct 100)
              let rt1 :=
                match gateVal with
                | GateV.tie =>
                  { rt with noteOn := some note.toNat, gateLeft := -100, tiePrev := true }
                | GateV.pct gp =>
                  { rt with noteOn := some note.toNat
                            gateLeft := (cfg.pulses : Int) * gp
                            tiePrev := false }
              some ({ rt1 with step := (rt1.step + 1) % cfg.length }, k2,
                some note.toNat, [Msg.noteOn note.toNat vel])

/-- The immediate-fire loop over the configured patterns (lines 673-675 and
722-724), threading the per-pattern `last_played` updates. -/
def play_all : List Cfg → List PatRT → List (Option Nat) → List Nat →
    (Nat → Nat) → Nat →
    Option (List PatRT × List (Option Nat) × Nat × List Msg)
  | [], [], [], _, _, k => some ([], [], k, [])
  | c :: cs, rt :: rts, lp :: lps, chord, g, k =>
    match play_pattern_step c chord rt g k with
    | none => none
    | some (rt1, k1, upd, ms) =>
      match play_all cs rts lps chord g k1 with
      | none => none
      | some (rts1, lps1, k2, ms2) =>
        some (rt1 :: rts1, (match upd with | some n => some n | none => lp) :: lps1,
          k2, ms ++ ms2)
  | _, _, _, _, _, _ => none

/-- The engine state owned by `main`: the held chord, the loaded pattern
configurations, the per-pattern runtimes, the `last_played` notes and the
output mapping (pattern name, 0-based channel), all in configuration
order. -/
structure Engine where
  chord : List Nat
  cfgs : List Cfg
  states : List PatRT
  lastPlayed : List (Option Nat)
  outMap : List (String × Nat)
deriving DecidableEq, Repr

/-- The engine as `main` creates it (lines 319-357). -/
def initEngine (cfgs : List Cfg) (outMap : List (String × Nat)) : Engine :=
  { chord := [], cfgs := cfgs, states := cfgs.map fun _ => freshRT
    lastPlayed := cfgs.map fun _ => none, outMap := outMap }

/-- One decoded inbound event.  `reload` carries the freshly loaded
configuration (the pending SIGUSR1 flag is consumed at the top of the
message loop, before the triggering message is handled, so it is an event
of its own at an event boundary).  Note events are those on the configured
input channel; other channels and message types are ignored by the loop. -/
inductive Ev
  | clock
  | start
  | stop
  | noteOnIn (note : Nat) (vel : Nat)
  | noteOffIn (note : Nat)
  | reload (cfgs : List Cfg) (outMap : List (String × Nat))
deriving DecidableEq, Repr

/-- Note-event handling (lines 691-727): update the chord, then handle the
non-empty-to-empty and empty-to-non-empty transitions. -/
def handle_note (eng : Engine) (g : Nat → Nat) (k : Nat) (isOn : Bool)
    (note : Nat) (vel : Nat) : Option (Engine × Nat × List Msg) :=
  let prevLen := eng.chord.length
  -- lines 694-697
  let chord :=
    if isOn ∧ 0 < vel then add_note eng.chord note else remove_note eng.chord note
  let newLen := chord.length
  if newLen = 0 ∧ 0 < prevLen then
    -- lines 702-713: chord became empty: note-off for `last_played` only,
    -- then reset the counters (the sounding/pending fields are *kept*)
    let r := off_last eng.lastPlayed
    some ({ eng with chord := chord, lastPlayed := r.1,
                     states := eng.states.map reset_counters }, k, r.2)
  else if prevLen = 0 ∧ 0 < newLen then
    -- lines 716-724: chord started: reset the counters and fire one
    -- immediate step per pattern
    let sts := eng.states.map reset_counters
    match play_all eng.cfgs sts eng.lastPlayed chord g k with
    | none => none
    | some (sts1, lps, k1, ms) =>
      some ({ eng with chord := chord, states := sts1, lastPlayed := lps }, k1, ms)
  else some ({ eng with chord := chord }, k, [])

/-- One pass of the message loop of `main` (lines 458-729) for one decoded
event. -/
def handleEvent (eng : Engine) (g : Nat → Nat) (k : Nat) :
    Ev → Option (Engine × Nat × List Msg)
  | Ev.reload cfgs om =>
    -- lines 460-497: apply the new configuration; `last_played` is reset
    -- only when the output mapping changed; the runtimes are recreated
    -- fresh; *nothing is sent*
    let lps :=
      if om ≠ eng.outMap then List.replicate cfgs.length none else eng.lastPlayed
    some ({ eng with cfgs := cfgs, states := cfgs.map (fun _ => freshRT),
                     lastPlayed := lps, outMap := om }, k, [])
  | Ev.clock =>
    if eng.chord.isEmpty then
      -- lines 502-509: spurious clock without chord
      let r := off_last eng.lastPlayed
      some ({ eng with lastPlayed := r.1 }, k, r.2)
    else
      -- lines 511-660
      match clock_fires eng.cfgs eng.states eng.chord g k with
      | none => none
      | some (sts, k1, ms) =>
        let t := clock_tails sts
        some ({ eng with states := t.1 }, k1, ms ++ t.2)
  | Ev.start =>
    -- lines 664-676
    let sts := eng.states.map reset_counters
    if eng.chord.isEmpty then some ({ eng with states := sts }, k, [])
    else
      match play_all eng.cfgs sts eng.lastPlayed eng.chord g k with
      | none => none
      | some (sts1, lps, k1, ms) =>
        some ({ eng with states := sts1, lastPlayed := lps }, k1, ms)
  | Ev.stop =>
    -- lines 678-688: note-off for `last_played` only; the assignments to
    -- `tick_counter` and `step_index` in the source write dead local
    -- variables and change no pattern state
    let r := off_last eng.lastPlayed
    some ({ eng with lastPlayed := r.1 }, k, r.2)
  | Ev.noteOnIn note vel => handle_note eng g k true note vel
  | Ev.noteOffIn note => handle_note eng g k false note 0

/-- Run a sequence of decoded events, collecting the emissions of each
event separately (in emission order). -/
def runEvents (eng : Engine) (g : Nat → Nat) (k : Nat) :
    List Ev → Option (Engine × Nat × List (List Msg))
  | [] => some (eng, k, [])
  | e :: es =>
    match handleEvent eng g k e with
    | none => none
    | some (eng1, k1, ms) =>
      match runEvents eng1 g k1 es with
      | none => none
      | some (eng2, k2, rest) => some (eng2, k2, ms :: rest)

/-- Is this message a note-on? -/
def Msg.isOn : Msg → Bool
  | Msg.noteOn _ _ => true
  | Msg.noteOff _ => false

/-- Is this message a note-on for the given note? -/
def Msg.isOnOf (n : Nat) : Msg → Bool
  | Msg.noteOn m _ => m = n
  | Msg.noteOff _ => false

/-- Is this message a note-off for the given note? -/
def Msg.isOffOf (n : Nat) : Msg → Bool
  | Msg.noteOn _ _ => false
  | Msg.noteOff m => m = n

/-- Number of note-ons for note `n` in a per-event emission log. -/
def countOn (n : Nat) (log : List (List Msg)) : Nat :=
  (log.flatten.filter (Msg.isOnOf n)).length

/-- Number of note-offs for note `n` in a per-event emission log. -/
def countOff (n : Nat) (log : List (List Msg)) : Nat :=
  (log.flatten.filter (Msg.isOffOf n)).length

/-- The all-zeros oracle stream (a concrete run of the randomized engine). -/
def zeros : Nat → Nat := fun _ => 0

/-- A raw pattern with every optional key absent (used as the base of the
concrete scenario configurations). -/
def rawBase : RawPattern :=
  { lengthOpt := none, steps := [], velocity := [], vrandom := [], sprob := []
    soct := [], gate := [], oktawa := 0, division := "1/16", enabled := none }

/-- Scenario raw config: length 2, steps [1, 2], 1/16 division, defaults. -/
def rawT1 : RawPattern :=
  { rawBase with lengthOpt := some 2, steps := [StepV.int 1, StepV.int 2] }

/-- `rawT1` loaded. -/
def cfgT1 : Cfg := load_pattern "Pattern 1" rawT1

/-- The single-pattern engine over `cfgT1`. -/
def engT1 : Engine := initEngine [cfgT1] [("Pattern 1", 0)]

/-- The tied-transition scenario: length 2, steps [1, 2], gate [Tie, 50],
1/16 division. -/
def rawT2 : RawPattern :=
  { rawBase with lengthOpt := some 2, steps := [StepV.int 1, StepV.int 2]
                 gate := [GateV.tie, GateV.pct 50] }

/-- `rawT2` loaded. -/
def cfgT2 : Cfg := load_pattern "Pattern 1" rawT2

/-- The single-pattern engine over `cfgT2`. -/
def engT2 : Engine := initEngine [cfgT2] [("Pattern 1", 0)]

/-- Like `rawT1` but with the two steps swapped: identical channels,
different step data (the reload scenario). -/
def rawT1b : RawPattern :=
  { rawBase with lengthOpt := some 2, steps := [StepV.int 2, StepV.int 1] }

/-- `rawT1b` loaded. -/
def cfgT1b : Cfg := load_pattern "Pattern 1" rawT1b

/-- The zero-probability scenario: length 2, steps [1, 2], s-prob [0, 0]. -/
def rawP0 : RawPattern :=
  { rawBase with lengthOpt := some 2, steps := [StepV.int 1, StepV.int 2]
                 sprob := [0, 0] }

/-- `rawP0` loaded. -/
def cfgP0 : Cfg := load_pattern "Pattern 1" rawP0

/-- The single-pattern engine over `cfgP0`. -/
def engP0 : Engine := initEngine [cfgP0] [("Pattern 1", 0)]

/-- A raw pattern explicitly marked `enabled: false`. -/
def rawT5 : RawPattern :=
  { rawBase with lengthOpt := some 1, steps := [StepV.int 1]
                 enabled := some false }

/-- `rawT5` loaded. -/
def cfgT5 : Cfg := load_pattern "Pattern 1" rawT5

/-- The single-pattern engine over `cfgT5`. -/
def engT5 : Engine := initEngine [cfgT5] [("Pattern 1", 0)]

/-- The per-step-octave scenario: length 1, steps [1], s-oct [2]. -/
def rawS : RawPattern :=
  { rawBase with lengthOpt := some 1, steps := [StepV.int 1], soct := [2] }

/-- `rawS` loaded. -/
def cfgS : Cfg := load_pattern "Pattern 1" rawS

/-- The single-pattern engine over `cfgS`. -/
def engS : Engine := initEngine [cfgS] [("Pattern 1", 0)]

/-- Like `rawS` with global octave 5: the clock-driven note (60 + 7·12 =
144) leaves the MIDI range while the immediate-fire note (60 + 5·12 = 120)
does not. -/
def rawS2 : RawPattern :=
  { rawBase with lengthOpt := some 1, steps := [StepV.int 1], soct := [2]
                 oktawa := 5 }

/-- `rawS2` loaded. -/
def cfgS2 : Cfg := load_pattern "Pattern 1" rawS2

/-- The single-pattern engine over `cfgS2`. -/
def engS2 : Engine := initEngine [cfgS2] [("Pattern 1", 0)]

/-- A raw pattern whose steps array (1 entry) is shorter than its declared
length (2). -/
def rawT7 : RawPattern :=
  { rawBase with lengthOpt := some 2, steps := [StepV.int 1] }

/-- `rawT7` loaded. -/
def cfgT7 : Cfg := load_pattern "Pattern 1" rawT7

/-- The single-pattern engine over `cfgT7`. -/
def engT7 : Engine := initEngine [cfgT7] [("Pattern 1", 0)]

/-- The C1 trace: build the chord {60, 64}, six clock pulses (the pulse-6
fire retriggers from note 60 to note 64), then release both chord notes so
the chord becomes empty. -/
def evsC1 : List Ev :=
  [Ev.noteOnIn 60 100, Ev.noteOnIn 64 100] ++ List.replicate 6 Ev.clock ++
    [Ev.noteOffIn 60, Ev.noteOffIn 64]

/-- The tied-transition trace: chord {60, 64}, then nine clock pulses. -/
def evsC2 : List Ev :=
  [Ev.noteOnIn 60 100, Ev.noteOnIn 64 100] ++ List.replicate 9 Ev.clock

/-- The reload trace: chord {60, 64}, six clock pulses (note 64 becomes the
sounding note), a reload to `cfgT1b` with the identical output mapping, then
chord release and Stop. -/
def evsC3 : List Ev :=
  [Ev.noteOnIn 60 100, Ev.noteOnIn 64 100] ++ List.replicate 6 Ev.clock ++
    [Ev.reload [cfgT1b] [("Pattern 1", 0)], Ev.noteOffIn 60, Ev.noteOffIn 64,
     Ev.stop]

/-- The Stop trace: chord {60, 64}, seven clock pulses, then Stop. -/
def evsC9 : List Ev :=
  [Ev.noteOnIn 60 100, Ev.noteOnIn 64 100] ++ List.replicate 7 Ev.clock ++
    [Ev.stop]

/-- The first seven events of the tied-transition trace (chord build-up and
the five silent pulses). -/
def preC2 : List Ev :=
  [Ev.noteOnIn 60 100, Ev.noteOnIn 64 100] ++ List.replicate 5 Ev.clock

/-- The last three pulses of the tied-transition trace. -/
def postC2 : List Ev := List.replicate 3 Ev.clock

/-- The engine state of the tied-transition scenario right before pulse 6:
note 60 sustained by the tie, accumulator at 5 pulses, cursor on step 1. -/
def E6C2 : Engine :=
  { chord := [60, 64], cfgs := [cfgT2]
    states := [{ tick := 500, step := 1, rand := [none, none], randVel := [none, none]
                 noteOn := some 60, gateLeft := -100, tiePrev := true
                 pendingOff := none, pendingLeft := 0 }]
    lastPlayed := [some 60], outMap := [("Pattern 1", 0)] }

/-- The engine state right after pulse 6: note 64 sounding with 2 pulses of
gate left (the 3-pulse 50% gate already decremented once by pulse 6's own
tail), the pending note-off of 60 already released. -/
def E7C2 : Engine :=
  { chord := [60, 64], cfgs := [cfgT2]
    states := [{ tick := 0, step := 0, rand := [none, none], randVel := [none, none]
                 noteOn := some 64, gateLeft := 200, tiePrev := false
                 pendingOff := none, pendingLeft := 0 }]
    lastPlayed := [some 60], outMap := [("Pattern 1", 0)] }

/-- The engine state after pulse 9 of the tied-transition scenario. -/
def engC2fin : Engine :=
  { chord := [60, 64], cfgs := [cfgT2]
    states := [{ tick := 300, step := 0, rand := [none, none], randVel := [none, none]
                 noteOn := none, gateLeft := 0, tiePrev := false
                 pendingOff := none, pendingLeft := 0 }]
    lastPlayed := [some 60], outMap := [("Pattern 1", 0)] }

/-- The runtime of the single `cfgP0` pattern right after the chord-enter
fire of note 60: the enter fire emitted note 60 with the full default gate
(6 pulses, 600 scaled). -/
def rtP0enter : PatRT :=
  { tick := 0, step := 1, rand := [none, none], randVel := [none, none]
    noteOn := some 60, gateLeft := 600, tiePrev := false, pendingOff := none
    pendingLeft := 0 }

/-- A runtime of the `cfgS` pattern with note 60 sounding, about to fire
step 0 (used to witness the note-number formula on a concrete fire). -/
def rtW : PatRT :=
  { tick := 0, step := 0, rand := [], randVel := [], noteOn := some 60
    gateLeft := 100, tiePrev := false, pendingOff := none, pendingLeft := 0 }

/-- The concrete result of the `cfgS` clock fire from `rtW`: it retriggers
from note 60 to note 84 = 60 + 12·(0 + 2). -/
def resW : PatRT × Nat × List Msg :=
  ({ tick := 0, step := 0, rand := [none], randVel := [none], noteOn := some 84
     gateLeft := 600, tiePrev := false, pendingOff := none, pendingLeft := 0 },
   1, [Msg.noteOff 60, Msg.noteOn 84 100])

/-- The probability gate never suppresses on a full s-prob entry of 100:
the draw is at most 100. -/
theorem prob_suppress_hundred (g : Nat → Nat) (k : Nat) :
    prob_suppress g k 100 = false := by
  have h : g k % 100 < 100 := Nat.mod_lt _ (by norm_num)
  simp only [prob_suppress, decide_eq_false_iff_not, not_lt]
  omega

/-- The probability gate always suppresses on a non-positive s-prob entry:
the draw is at least 1. -/
theorem prob_suppress_nonpos (g : Nat → Nat) (k : Nat) (sp : Int) (hsp : sp ≤ 0) :
    prob_suppress g k sp = true := by
  simp only [prob_suppress, decide_eq_true_eq]
  have : (0 : Int) ≤ ((g k % 100 : Nat) : Int) := Int.natCast_nonneg _
  omega

/-- **C1** (code bug): on the trace that empties the chord after a
clock-driven retrigger, the engine emits one note-on for note 64 and *no*
note-off for it — the chord-empty handler releases only `last_played`
(which the clock path never updates) — and after the chord has emptied the
pattern runtime still records note 64 as sounding. -/
theorem chord_empty_stuck_note :
    (runEvents engT1 zeros 0 evsC1).map
      (fun r => (countOn 64 r.2.2, countOff 64 r.2.2, r.1.chord,
        r.1.states.map PatRT.noteOn)) = some (1, 0, [], [some 64]) ∧
    (runEvents engT1 zeros 0 evsC1).map
      (fun r => r.1.states.map PatRT.pendingOff) = some [none] :=
  ⟨by decide, by decide⟩

/-- **C2** (counterexample): in the tied-transition scenario the per-event
emission log of the concrete run shows `NoteOff 60` emitted *during*
pulse 6 (right after `NoteOn 64`), nothing at pulse 7, `NoteOff 64` at
pulse 8, and nothing at pulse 9 — contradicting the claimed pulses 7
and 9.  Log index 0 is the chord-enter note-on of the first chord note;
index `1 + i` is the i-th clock pulse. -/
theorem tied_transition_timing_counterexample :
    (runEvents engT2 zeros 0 evsC2).map (fun r => r.2.2) =
      some [[Msg.noteOn 60 100], [], [], [], [], [], [],
        [Msg.noteOn 64 100, Msg.noteOff 60], [], [Msg.noteOff 64], []] := by
  decide

/-- **C3** (counterexample): a reload whose output mapping is identical but
whose step data differs emits nothing at the reload boundary (log index 8)
although note 64 is sounding, and over the whole trace — through the
subsequent chord release and Stop — note 64 receives one note-on and zero
note-offs: the reload leaves a stuck note. -/
theorem reload_stuck_note_counterexample :
    (runEvents engT1 zeros 0 evsC3).map
      (fun r => (r.2.2.getD 8 [Msg.noteOff 0], countOn 64 r.2.2,
        countOff 64 r.2.2)) =
      some ([], 1, 0) := by decide

/-- **C4** (counterexample): with s-prob 0 on every step, the immediate
chord-enter fire still emits a note-on — the immediate-fire path has no
probability gate at all, while the claim requires every fire (including the
chord-enter fire) to draw u ∈ [1..100] and suppress, since u > 0 always. -/
theorem sprob_zero_immediate_fire_counterexample :
    (runEvents engP0 zeros 0 [Ev.noteOnIn 60 100]).map (fun r => r.2.2) =
      some [[Msg.noteOn 60 100]] := by decide

/-- **C5** (counterexample): a pattern whose raw configuration carries
`enabled: false` still emits a note-on on chord enter — the loader and the
engine never consult the flag. -/
theorem disabled_pattern_emits_counterexample :
    rawT5.enabled = some false ∧
    (runEvents engT5 zeros 0 [Ev.noteOnIn 60 100]).map (fun r => r.2.2) =
      some [[Msg.noteOn 60 100]] := by decide

/-- **C6** (counterexample): with s-oct [2] and global octave 0 the
chord-enter fire emits note 60, not the claimed 60 + 12·(0 + 2 + 0) = 84
(the r-oct descriptor "0" contributes offset 0 under the claim): the
immediate-fire path ignores the per-step octave entirely. -/
theorem note_formula_counterexample :
    (runEvents engS zeros 0 [Ev.noteOnIn 60 100]).map (fun r => r.2.2) =
      some [[Msg.noteOn 60 100]] ∧ (60 : Int) ≠ 60 + (0 + 2 + 0) * 12 := by
  decide

/-- **C7** (counterexample): the loader leaves a steps array of 1 entry
unpadded against a declared length of 2 (while the five other arrays are
padded), and the clock-driven fire of step position 1 then faults
(IndexError) — the run of the loaded pattern evaluates to `none`. -/
theorem steps_not_padded_counterexample :
    cfgT7.length = 2 ∧ cfgT7.steps.length = 1 ∧ cfgT7.velocity.length = 2 ∧
    runEvents engT7 zeros 0 (Ev.noteOnIn 60 100 :: List.replicate 6 Ev.clock) =
      none := by decide

/-- **C8** (counterexample): `parse_division` truncates to an integer:
"1/32d" yields 4 (not the claimed float 4.5) and "1/2q" yields 38 (not the
claimed 38.4). -/
theorem division_not_float_counterexample :
    parse_division "1/32d" = 4 ∧ parse_division "1/2q" = 38 ∧
    (4 : ℚ) ≠ 9 / 2 ∧ (38 : ℚ) ≠ 192 / 5 :=
  ⟨by decide, by decide, by norm_num, by norm_num⟩

/-- Splitting a run of events at a boundary: the second leg starts from the
state and stream position the first leg ends in. -/
theorem runEvents_append (eng : Engine) (g : Nat → Nat) (k : Nat) (es1 es2 : List Ev) :
    runEvents eng g k (es1 ++ es2) =
      match runEvents eng g k es1 with
      | none => none
      | some (e1, k1, log1) =>
        match runEvents e1 g k1 es2 with
        | none => none
        | some (e2, k2, log2) => some (e2, k2, log1 ++ log2) := by
  induction es1 generalizing eng k with
  | nil =>
    simp only [List.nil_append, runEvents]
    cases h : runEvents eng g k es2 with
    | none => rfl
    | some r =>
      rcases r with ⟨e2, k2, log2⟩
      simp only [List.nil_append]
  | cons e es ih =>
    simp only [List.cons_append, runEvents, List.append_eq, ih]
    cases h : handleEvent eng g k e with
    | none => rfl
    | some r =>
      rcases r with ⟨e1, k1, ms⟩
      dsimp only
      cases h1 : runEvents e1 g k1 es with
      | none => rfl
      | some r1 =>
        rcases r1 with ⟨e2, k2, log1⟩
        dsimp only
        cases h2 : runEvents e2 g k2 es2 with
        | none => rfl
        | some r2 =>
          rcases r2 with ⟨e3, k3, log2⟩
          simp only [List.cons_append]

/-- Pulse 6 of the tied-transition scenario, for an arbitrary oracle
stream: the probability entry is 100 so the single draw never suppresses;
the fire emits note 64 and schedules the pending note-off of 60, which the
same pulse's tail releases. -/
theorem pulse6C2 (g : Nat → Nat) :
    handleEvent E6C2 g 0 Ev.clock =
      some (E7C2, 1, [Msg.noteOn 64 100, Msg.noteOff 60]) := by
  have hp : prob_suppress g 0 100 = false := prob_suppress_hundred g 0
  have hc : cfgT2 =
      { length := 2, steps := [StepV.int 1, StepV.int 2], octave := 0
        velocity := [VelV.fixed 100, VelV.fixed 100], vrandom := [0, 0]
        sprob := [100, 100], soct := [0, 0], gate := [GateV.tie, GateV.pct 50]
        pulses := 6 } := rfl
  simp [handleEvent, clock_fires, clock_pattern, clockFire, clockFireIdx, salvage_idx,
    resolve_vel, emit_gate_step, gate_tail, clock_tails, E6C2, E7C2, hc, hp]

/-- **C2** (amended): in the tied-transition scenario, for every oracle
stream: the chord-enter fire emits NoteOn 60 sustained; pulse 6 fires
step 1, emitting NoteOn 64 and scheduling the pending note-off of 60 with a
1-pulse counter which the *same* pulse's countdown tail already expires, so
NoteOff 60 is emitted during pulse 6 right after NoteOn 64; the 3-pulse 50%
gate of note 64, also decremented starting at pulse 6's tail, expires at
pulse 8, where NoteOff 64 is emitted; pulses 7 and 9 emit nothing. -/
theorem tied_transition_scenario (g : Nat → Nat) :
    runEvents engT2 g 0 evsC2 =
      some (engC2fin, 1,
        [[Msg.noteOn 60 100], [], [], [], [], [], [],
         [Msg.noteOn 64 100, Msg.noteOff 60], [], [Msg.noteOff 64], []]) := by
  have hsplit : evsC2 = preC2 ++ ([Ev.clock] ++ postC2) := rfl
  have h1 : runEvents engT2 g 0 preC2 =
      some (E6C2, 0, [[Msg.noteOn 60 100], [], [], [], [], [], []]) := rfl
  have h2 : runEvents E6C2 g 0 [Ev.clock] =
      some (E7C2, 1, [[Msg.noteOn 64 100, Msg.noteOff 60]]) := by
    simp only [runEvents, pulse6C2 g]
  have h3 : runEvents E7C2 g 1 postC2 =
      some (engC2fin, 1, [[], [Msg.noteOff 64], []]) := rfl
  rw [hsplit, runEvents_append, h1]
  dsimp only
  rw [runEvents_append, h2]
  dsimp only
  rw [h3]
  rfl

/-- Witness for `tied_transition_scenario` at the all-zeros oracle. -/
theorem tied_transition_scenario_witness :
    runEvents engT2 zeros 0 evsC2 =
      some (engC2fin, 1,
        [[Msg.noteOn 60 100], [], [], [], [], [], [],
         [Msg.noteOn 64 100, Msg.noteOff 60], [], [Msg.noteOff 64], []]) :=
  tied_transition_scenario zeros

/-- The probability gate always suppresses on a zero s-prob entry:
the draw is at least 1. -/
theorem prob_suppress_zero (g : Nat → Nat) (k : Nat) : prob_suppress g k 0 = true :=
  prob_suppress_nonpos g k 0 le_rfl

/-- The countdown tail emits note-offs only. -/
theorem gate_tail_no_noteOn (rt : PatRT) : (gate_tail rt).2.filter Msg.isOn = [] := by
  unfold gate_tail
  rcases rt with ⟨tick, step, rand, randVel, noteOn, gateLeft, tiePrev, pendingOff,
    pendingLeft⟩
  rcases noteOn with _ | n <;> rcases pendingOff with _ | p <;> dsimp only
  all_goals repeat' split
  all_goals rfl

/-- Every s-prob lookup of `cfgP0` yields 0. -/
theorem sprobP0 (i : Nat) : cfgP0.sprob.get? (i % cfgP0.sprob.length) = some 0 := by
  have h2 : cfgP0.sprob.length = 2 := rfl
  rw [h2]
  rcases Nat.mod_two_eq_zero_or_one i with h | h <;> rw [h] <;> rfl

/-- Under `cfgP0` (s-prob 0 everywhere) a clock pulse of the pattern never
emits: either the accumulator has not reached the threshold, or the fire is
suppressed by the probability gate before any message is produced. -/
theorem clock_pattern_P0 (chord : List Nat) (rt : PatRT) (g : Nat → Nat) (k : Nat) :
    ∃ rt1 k1, clock_pattern cfgP0 chord rt g k = some (rt1, k1, []) := by
  simp only [clock_pattern, clockFire, sprobP0, prob_suppress_zero, if_true]
  split
  · exact ⟨_, _, rfl⟩
  · exact ⟨_, _, rfl⟩

/-- Under `cfgP0` a whole clock event of the single-pattern engine emits no
note-on (the fire never emits, the tail emits note-offs only), and the
chord, configuration, `last_played` and output mapping are untouched. -/
theorem clock_P0_no_noteOn (rt : PatRT) (lp : List (Option Nat)) (g : Nat → Nat)
    (k : Nat) :
    ∃ rt1 k1 ms,
      handleEvent { chord := [60], cfgs := [cfgP0], states := [rt], lastPlayed := lp,
                    outMap := [("Pattern 1", 0)] } g k Ev.clock =
        some ({ chord := [60], cfgs := [cfgP0], states := [rt1], lastPlayed := lp,
                outMap := [("Pattern 1", 0)] }, k1, ms) ∧
      ms.filter Msg.isOn = [] := by
  obtain ⟨rt1, k1, hcp⟩ := clock_pattern_P0 [60] rt g k
  refine ⟨(gate_tail rt1).1, k1, [] ++ ((gate_tail rt1).2 ++ []), ?_, ?_⟩
  · simp only [handleEvent, clock_fires, clock_tails, hcp, List.isEmpty_cons]
    rfl
  · simp only [List.nil_append, List.append_nil, gate_tail_no_noteOn rt1]

/-- Under `cfgP0` any number of clock pulses emits zero note-ons, from any
pattern runtime and `last_played` state. -/
theorem clocks_P0_no_noteOn (n : Nat) :
    ∀ (rt : PatRT) (lp : List (Option Nat)) (g : Nat → Nat) (k : Nat),
      ∃ r, runEvents { chord := [60], cfgs := [cfgP0], states := [rt],
                       lastPlayed := lp, outMap := [("Pattern 1", 0)] } g k
            (List.replicate n Ev.clock) = some r ∧
        (r.2.2.flatten.filter Msg.isOn).length = 0 := by
  induction n with
  | zero =>
    intro rt lp g k
    exact ⟨_, rfl, rfl⟩
  | succ m ih =>
    intro rt lp g k
    obtain ⟨rt1, k1, ms, hev, hms⟩ := clock_P0_no_noteOn rt lp g k
    obtain ⟨r, hrun, hcount⟩ := ih rt1 lp g k1
    refine ⟨(r.1, r.2.1, ms :: r.2.2), ?_, ?_⟩
    · simp only [List.replicate_succ, runEvents, hev, hrun]
    · simp only [List.flatten_cons, List.filter_append, List.length_append, hms,
        hcount, List.length_nil]

/-- **C4** (amended): the probability gate exists only on the clock-driven
fire path; the immediate chord-enter fire never draws and never suppresses.
With s-prob 0 on every step, for every oracle stream and every number of
clock pulses the run emits exactly one note-on — the chord-enter one — and
none from any clock fire. -/
theorem sprob_zero_suppresses_clock_fires (g : Nat → Nat) (n : Nat) :
    ∃ r, runEvents engP0 g 0 (Ev.noteOnIn 60 100 :: List.replicate n Ev.clock) =
        some r ∧
      (r.2.2.flatten.filter Msg.isOn).length = 1 := by
  have henter : handleEvent engP0 g 0 (Ev.noteOnIn 60 100) =
      some ({ chord := [60], cfgs := [cfgP0], states := [rtP0enter],
              lastPlayed := [some 60], outMap := [("Pattern 1", 0)] }, 0,
        [Msg.noteOn 60 100]) := rfl
  obtain ⟨r, hrun, hcount⟩ := clocks_P0_no_noteOn n rtP0enter [some 60] g 0
  refine ⟨(r.1, r.2.1, [Msg.noteOn 60 100] :: r.2.2), ?_, ?_⟩
  · simp only [runEvents, henter, hrun]
  · simp only [List.flatten_cons, List.filter_append, List.length_append, hcount]
    rfl

/-- Witness for `sprob_zero_suppresses_clock_fires` at the all-zeros oracle
over 14 pulses. -/
theorem sprob_zero_suppresses_clock_fires_witness :
    ∃ r, runEvents engP0 zeros 0
        (Ev.noteOnIn 60 100 :: List.replicate 14 Ev.clock) = some r ∧
      (r.2.2.flatten.filter Msg.isOn).length = 1 :=
  sprob_zero_suppresses_clock_fires zeros 14

/-- **C3** (amended): a reload is applied at an event boundary — the new
configuration replaces the old and every pattern runtime is re-created
fresh — but *no* note-off is emitted for in-flight sounding notes, and on
the concrete reload trace (identical channels, different step data) the
sounding note 64 never receives a note-off: the reload leaves it stuck. -/
theorem reload_reinitializes_without_release :
    (∀ (eng : Engine) (g : Nat → Nat) (k : Nat) (cfgs : List Cfg)
        (om : List (String × Nat)),
      (handleEvent eng g k (Ev.reload cfgs om)).map
        (fun r => (r.2.2, r.1.cfgs, r.1.states, r.1.chord)) =
        some ([], cfgs, cfgs.map (fun _ => freshRT), eng.chord)) ∧
    (runEvents engT1 zeros 0 evsC3).map
      (fun r => (countOn 64 r.2.2, countOff 64 r.2.2)) = some (1, 0) :=
  ⟨fun _ _ _ _ _ => rfl, by decide⟩

/-- Witness for `reload_reinitializes_without_release` at the concrete
reload of the scenario engine. -/
theorem reload_reinitializes_without_release_witness :
    (handleEvent engT1 zeros 0 (Ev.reload [cfgT1b] [("Pattern 1", 0)])).map
      (fun r => (r.2.2, r.1.cfgs, r.1.states, r.1.chord)) =
      some ([], [cfgT1b], [cfgT1b].map (fun _ => freshRT), engT1.chord) :=
  reload_reinitializes_without_release.1 engT1 zeros 0 [cfgT1b] [("Pattern 1", 0)]

/-- **C5** (amended): the loader never consults the `enabled` flag, so the
loaded configuration — and with it every emission of the engine — is
independent of it: a disabled pattern plays exactly like an enabled one. -/
theorem enabled_flag_ignored (name : String) (p : RawPattern) (b1 b2 : Option Bool) :
    load_pattern name { p with enabled := b1 } =
      load_pattern name { p with enabled := b2 } := rfl

/-- Witness for `enabled_flag_ignored` at the disabled scenario pattern. -/
theorem enabled_flag_ignored_witness :
    load_pattern "Pattern 1" { rawT5 with enabled := some false } =
      load_pattern "Pattern 1" { rawT5 with enabled := some true } :=
  enabled_flag_ignored "Pattern 1" rawT5 (some false) (some true)

/-- Every note-on the gate/tie machine emits carries exactly the note and
velocity it was invoked with. -/
theorem emit_gate_step_noteOn (cfg : Cfg) (rt : PatRT) (note : Nat) (vel : Int)
    (gv : GateV) (m : Nat) (v : Int)
    (hm : Msg.noteOn m v ∈ (emit_gate_step cfg rt note vel gv).2) :
    m = note ∧ v = vel := by
  unfold emit_gate_step at hm
  cases gv <;> cases h : rt.noteOn <;> simp only [h] at hm
  all_goals repeat' split at hm
  all_goals simp_all

/-- A successful `randint` draw lies within its bounds. -/
theorem randint_bounds (g : Nat → Nat) (k : Nat) (a b v : Int) (k1 : Nat)
    (h : randint g k a b = some (v, k1)) : a ≤ v ∧ v ≤ b := by
  unfold randint at h
  split at h
  · cases h
  · next hba =>
    injection h with h1
    injection h1 with hv hk
    have hpos : 0 < b - a + 1 := by omega
    have h0 : 0 ≤ (g k : Int) % (b - a + 1) := Int.emod_nonneg _ (by omega)
    have h2 : (g k : Int) % (b - a + 1) < b - a + 1 := Int.emod_lt_of_pos _ hpos
    omega

/-- A successfully salvaged chord index lies in [1, chord size]. -/
theorem salvage_idx_bounds (g : Nat → Nat) (k : Nat) (ln : Int) (idxO : Option Int)
    (v : Int) (k1 : Nat) (h : salvage_idx g k ln idxO = some (v, k1)) :
    1 ≤ v ∧ v ≤ ln := by
  unfold salvage_idx at h
  split at h
  · exact randint_bounds g k 1 ln v k1 h
  · split at h
    · next hin =>
      injection h with h1
      injection h1 with hv hk
      subst hv
      exact hin
    · exact randint_bounds g k 1 ln v k1 h

/-- Every note-on emitted past the salvage of the clock-driven fire has the
note number of line 561: chord note plus 12·(global octave + s-oct entry),
and lies within the MIDI range. -/
theorem clockFireIdx_noteOn (cfg : Cfg) (chord : List Nat) (rt : PatRT)
    (g : Nat → Nat) (k stepPos : Nat) (idxO : Option Int)
    (res : PatRT × Nat × List Msg)
    (h : clockFireIdx cfg chord rt g k stepPos idxO = some res)
    (m : Nat) (v : Int) (hm : Msg.noteOn m v ∈ res.2.2) :
    ∃ (i : Nat) (so : Int), i < chord.length ∧
      cfg.soct.get? (stepPos % cfg.soct.length) = some so ∧
      (m : Int) = (chord.getD i 0 : Int) + (cfg.octave + so) * 12 ∧ m ≤ 127 := by
  unfold clockFireIdx at h
  dsimp only at h
  rcases hs : salvage_idx g k (chord.length : Int) idxO with _ | ⟨idx, k1⟩ <;>
    rw [hs] at h <;> dsimp only at h
  · cases h
  · have hidx := salvage_idx_bounds g k _ idxO idx k1 hs
    split at h
    · cases h
    · next so hso =>
      split at h
      · cases h
      · next vel rt1 k2 hvel =>
        split at h
        · injection h with h1
          subst h1
          simp at hm
        · next hrange =>
          injection h with h1
          subst h1
          have hnote := emit_gate_step_noteOn cfg rt1 _ vel _ m v (by exact hm)
          rcases hnote with ⟨hm1, _⟩
          subst hm1
          rw [not_or, not_lt, not_lt] at hrange
          refine ⟨(idx - 1).toNat, so, by omega, hso, ?_, ?_⟩
          · exact Int.toNat_of_nonneg hrange.1
          · exact Int.toNat_le.mpr hrange.2

/-- Every note-on emitted by a clock-driven fire satisfies the note-number
formula with the per-step octave entry of the fired position. -/
theorem clockFire_noteOn (cfg : Cfg) (chord : List Nat) (rt0 : PatRT)
    (g : Nat → Nat) (k : Nat) (res : PatRT × Nat × List Msg)
    (h : clockFire cfg chord rt0 g k = some res)
    (m : Nat) (v : Int) (hm : Msg.noteOn m v ∈ res.2.2) :
    ∃ (i : Nat) (so : Int), i < chord.length ∧
      cfg.soct.get? ((rt0.step % cfg.length) % cfg.soct.length) = some so ∧
      (m : Int) = (chord.getD i 0 : Int) + (cfg.octave + so) * 12 ∧ m ≤ 127 := by
  unfold clockFire at h
  dsimp only at h
  split at h
  · cases h
  · split at h
    · injection h with h1
      subst h1
      simp at hm
    · split at h
      · cases h
      · split at h
        · split at h
          · injection h with h1
            subst h1
            simp at hm
          · split at h
            · cases h
            · split at h
              · cases h
              · exact clockFireIdx_noteOn cfg chord _ g _ _ _ res h m v hm
        · exact clockFireIdx_noteOn cfg chord _ g _ _ _ res h m v hm

/-- Every note-on emitted by the index stage of the immediate fire has the
note number of line 423: chord note plus 12·global octave only. -/
theorem play_step_idx_noteOn (cfg : Cfg) (chord : List Nat) (rt : PatRT)
    (g : Nat → Nat) (k stepPos : Nat) (idxO : Option Int)
    (res : PatRT × Nat × Option Nat × List Msg)
    (h : play_pattern_step.play_step_idx cfg chord rt g k stepPos idxO = some res)
    (m : Nat) (v : Int) (hm : Msg.noteOn m v ∈ res.2.2.2) :
    ∃ i : Nat, i < chord.length ∧
      (m : Int) = (chord.getD i 0 : Int) + cfg.octave * 12 ∧ m ≤ 127 := by
  unfold play_pattern_step.play_step_idx at h
  dsimp only at h
  split at h
  · injection h with h1
    subst h1
    simp at hm
  · next idx =>
    split at h
    · injection h with h1
      subst h1
      simp at hm
    · next hin =>
      rw [not_not] at hin
      split at h
      · cases h
      · next base k1 hbase =>
        split at h
        · cases h
        · next vel k2 hvel =>
          split at h
          · injection h with h1
            subst h1
            simp at hm
          · next hrange =>
            rw [not_not] at hrange
            injection h with h1
            subst h1
            have hm2 : Msg.noteOn m v = Msg.noteOn
                ((chord.getD (idx - 1).toNat 0 : Int) + cfg.octave * 12).toNat vel :=
              List.mem_singleton.mp (by exact hm)
            injection hm2 with hm3 hv
            subst hm3
            refine ⟨(idx - 1).toNat, by omega, ?_, ?_⟩
            · exact Int.toNat_of_nonneg hrange.1
            · exact Int.toNat_le.mpr hrange.2

/-- Every note-on emitted by the immediate (chord-enter / Start) fire has
the note number of line 423. -/
theorem play_pattern_step_noteOn (cfg : Cfg) (chord : List Nat) (rt0 : PatRT)
    (g : Nat → Nat) (k : Nat) (res : PatRT × Nat × Option Nat × List Msg)
    (h : play_pattern_step cfg chord rt0 g k = some res)
    (m : Nat) (v : Int) (hm : Msg.noteOn m v ∈ res.2.2.2) :
    ∃ i : Nat, i < chord.length ∧
      (m : Int) = (chord.getD i 0 : Int) + cfg.octave * 12 ∧ m ≤ 127 := by
  unfold play_pattern_step at h
  dsimp only at h
  split at h
  · injection h with h1
    subst h1
    simp at hm
  · split at h
    · cases h
    · split at h
      · split at h
        · injection h with h1
          subst h1
          simp at hm
        · split at h
          · split at h
            · cases h
            · exact play_step_idx_noteOn cfg chord _ g _ _ _ res h m v hm
            · split at h
              · cases h
              · exact play_step_idx_noteOn cfg chord _ g _ _ _ res h m v hm
          · split at h
            · cases h
            · exact play_step_idx_noteOn cfg chord _ g _ _ _ res h m v hm
      · exact play_step_idx_noteOn cfg chord _ g _ _ _ res h m v hm

/-- **C6** (amended): every note-on emitted by a clock-driven fire has note
number chord-note + 12·(global_octave + s_oct[step_pos]) for some chord
position — there is no random octave term, the loader never reads "r-oct" —
while the immediate chord-enter/Start fire applies the global octave only
(no s_oct either); in both paths every emitted note lies in [0, 127]
(out-of-range notes are skipped without emission). -/
theorem emitted_note_formula :
    (∀ (cfg : Cfg) (chord : List Nat) (rt : PatRT) (g : Nat → Nat) (k : Nat)
        (res : PatRT × Nat × List Msg) (m : Nat) (v : Int),
      clockFire cfg chord rt g k = some res → Msg.noteOn m v ∈ res.2.2 →
      ∃ (i : Nat) (so : Int), i < chord.length ∧
        cfg.soct.get? ((rt.step % cfg.length) % cfg.soct.length) = some so ∧
        (m : Int) = (chord.getD i 0 : Int) + (cfg.octave + so) * 12 ∧ m ≤ 127) ∧
    (∀ (cfg : Cfg) (chord : List Nat) (rt : PatRT) (g : Nat → Nat) (k : Nat)
        (res : PatRT × Nat × Option Nat × List Msg) (m : Nat) (v : Int),
      play_pattern_step cfg chord rt g k = some res →
      Msg.noteOn m v ∈ res.2.2.2 →
      ∃ i : Nat, i < chord.length ∧
        (m : Int) = (chord.getD i 0 : Int) + cfg.octave * 12 ∧ m ≤ 127) :=
  ⟨fun cfg chord rt g k res m v h hm =>
      clockFire_noteOn cfg chord rt g k res h m v hm,
   fun cfg chord rt g k res m v h hm =>
      play_pattern_step_noteOn cfg chord rt g k res h m v hm⟩

/-- Witness for `emitted_note_formula` on the concrete `cfgS` fire that
emits note 84. -/
theorem emitted_note_formula_witness :
    ∃ (i : Nat) (so : Int), i < ([60] : List Nat).length ∧
      cfgS.soct.get? ((rtW.step % cfgS.length) % cfgS.soct.length) = some so ∧
      ((84 : Nat) : Int) = (([60] : List Nat).getD i 0 : Int) + (cfgS.octave + so) * 12 ∧
      (84 : Nat) ≤ 127 :=
  emitted_note_formula.1 cfgS [60] rtW zeros 0 resW 84 100 (by decide) (by decide)

/-- Each loaded per-step array other than `steps` is the raw array
truncated and right-padded to exactly the requested number of entries. -/
theorem pad_entries_length (raw : List α) (f : α → β) (L : Nat) (d : β) :
    (if raw.isEmpty then List.replicate L d
     else padTo ((raw.take L).map f) L d).length = L := by
  split
  · exact List.length_replicate ..
  · simp only [padTo, List.length_append, List.length_map, List.length_take,
      List.length_replicate]
    omega

/-- **C7** (amended): for a raw pattern with a declared length in [1, 16]
and a non-empty steps array, the loader pads/truncates velocity, v-random,
s-prob, s-oct and gate to exactly `length` entries — but `steps` is only
truncated to 16 entries and never padded to `length`; when the steps array
is shorter than the length the clock-driven fire indexes past its end and
faults, as the run of the loaded `rawT7` (steps [1], length 2) shows. -/
theorem loader_pads_arrays_but_not_steps (name : String) (p : RawPattern) (L : Nat)
    (hL : p.lengthOpt = some L) (h1 : 1 ≤ L) (h16 : L ≤ 16)
    (hsteps : (p.steps.take 16).isEmpty = false) :
    ((load_pattern name p).length = L ∧
     (load_pattern name p).velocity.length = L ∧
     (load_pattern name p).vrandom.length = L ∧
     (load_pattern name p).sprob.length = L ∧
     (load_pattern name p).soct.length = L ∧
     (load_pattern name p).gate.length = L ∧
     (load_pattern name p).steps = p.steps.take 16) ∧
    runEvents engT7 zeros 0 (Ev.noteOnIn 60 100 :: List.replicate 6 Ev.clock) =
      none := by
  constructor
  · unfold load_pattern
    simp only [hL, Option.getD_some, hsteps, Bool.false_eq_true, if_false,
      pad_entries_length]
    exact ⟨by omega, trivial, trivial, trivial, trivial, trivial, trivial⟩
  · decide

/-- Witness for `loader_pads_arrays_but_not_steps` at `rawT7`. -/
theorem loader_pads_arrays_but_not_steps_witness :
    ((load_pattern "Pattern 1" rawT7).length = 2 ∧
     (load_pattern "Pattern 1" rawT7).velocity.length = 2 ∧
     (load_pattern "Pattern 1" rawT7).vrandom.length = 2 ∧
     (load_pattern "Pattern 1" rawT7).sprob.length = 2 ∧
     (load_pattern "Pattern 1" rawT7).soct.length = 2 ∧
     (load_pattern "Pattern 1" rawT7).gate.length = 2 ∧
     (load_pattern "Pattern 1" rawT7).steps = rawT7.steps.take 16) ∧
    runEvents engT7 zeros 0 (Ev.noteOnIn 60 100 :: List.replicate 6 Ev.clock) =
      none :=
  loader_pads_arrays_but_not_steps "Pattern 1" rawT7 2 (by decide) (by decide)
    (by decide) (by decide)

/-- **C8** (amended): `parse_division` maps the six bases to 96, 48, 24,
12, 6 and 3 pulses; the suffixes d, t and q multiply the base by 1.5, 2/3
and 4/5 *truncating the result to an integer* (so "1/32d" yields 4 and
"1/2q" yields 38); an unknown base defaults to 6 (also under a suffix);
and every result is clamped to at least 1. -/
theorem division_resolver_table :
    (parse_division "1" = 96 ∧ parse_division "1/2" = 48 ∧
      parse_division "1/4" = 24 ∧ parse_division "1/8" = 12 ∧
      parse_division "1/16" = 6 ∧ parse_division "1/32" = 3) ∧
    (parse_division "1d" = 144 ∧ parse_division "1/2d" = 72 ∧
      parse_division "1/4d" = 36 ∧ parse_division "1/8d" = 18 ∧
      parse_division "1/16d" = 9 ∧ parse_division "1/32d" = 4) ∧
    (parse_division "1t" = 64 ∧ parse_division "1/2t" = 32 ∧
      parse_division "1/4t" = 16 ∧ parse_division "1/8t" = 8 ∧
      parse_division "1/16t" = 4 ∧ parse_division "1/32t" = 2) ∧
    (parse_division "1q" = 76 ∧ parse_division "1/2q" = 38 ∧
      parse_division "1/4q" = 19 ∧ parse_division "1/8q" = 9 ∧
      parse_division "1/16q" = 4 ∧ parse_division "1/32q" = 2) ∧
    (parse_division "bogus" = 6 ∧ parse_division "3/4d" = 9) ∧
    (∀ s, 1 ≤ parse_division s) :=
  ⟨by decide, by decide, by decide, by decide, by decide,
   fun s => by unfold parse_division; exact le_max_left ..⟩

/-- Witness for `division_resolver_table` instantiating its clamp clause. -/
theorem division_resolver_table_witness : 1 ≤ parse_division "1/8t" :=
  division_resolver_table.2.2.2.2.2 "1/8t"

/-- **C10**: after every insert and remove the chord buffer is sorted
ascending, has no duplicates and holds at most `MAX_NOTES = 8` notes;
inserting a present note is a no-op; when an 9th distinct note arrives the
8 lowest notes of the 9 are retained (every retained note is bounded by
every dropped one); removing an absent note is a no-op. -/
theorem chord_buffer_ops (c : List Nat) (n : Nat)
    (hs : c.Sorted (· ≤ ·)) (hd : c.Nodup) (hl : c.length ≤ MAX_NOTES) :
    ((add_note c n).Sorted (· ≤ ·) ∧ (add_note c n).Nodup ∧
      (add_note c n).length ≤ MAX_NOTES) ∧
    (n ∈ c → add_note c n = c) ∧
    (c.length = MAX_NOTES → n ∉ c →
      ∀ x ∈ add_note c n, ∀ y ∈ c ++ [n], y ∉ add_note c n → x ≤ y) ∧
    ((remove_note c n).Sorted (· ≤ ·) ∧ (remove_note c n).Nodup ∧
      (remove_note c n).length ≤ MAX_NOTES) ∧
    (n ∉ c → remove_note c n = c) := by
  refine ⟨?_, ?_, ?_, ?_, ?_⟩
  · by_cases hmem : n ∈ c
    · simp only [add_note, if_pos hmem]
      exact ⟨hs, hd, hl⟩
    · simp only [add_note, if_neg hmem]
      have hsorted := List.sorted_insertionSort (α := Nat) (· ≤ ·) (c ++ [n])
      have hperm := List.perm_insertionSort (α := Nat) (· ≤ ·) (c ++ [n])
      have hnodup : (c ++ [n]).Nodup := by
        refine List.Nodup.append hd (List.nodup_singleton n) ?_
        intro a ha hb
        rw [List.mem_singleton] at hb
        exact hmem (hb ▸ ha)
      refine ⟨hsorted.sublist (List.take_sublist ..), ?_, ?_⟩
      · exact (hperm.nodup_iff.mpr hnodup).sublist (List.take_sublist ..)
      · rw [List.length_take]
        exact min_le_left ..
  · intro hmem
    simp only [add_note, if_pos hmem]
  · intro _ hmem x hx y hy hyn
    simp only [add_note, if_neg hmem] at hx hyn
    have hsorted := List.sorted_insertionSort (α := Nat) (· ≤ ·) (c ++ [n])
    have hperm := List.perm_insertionSort (α := Nat) (· ≤ ·) (c ++ [n])
    set s := List.insertionSort (· ≤ ·) (c ++ [n]) with hsdef
    have hys : y ∈ s := hperm.mem_iff.mpr hy
    have hyd : y ∈ s.drop MAX_NOTES := by
      rcases (List.mem_append.mp ((List.take_append_drop MAX_NOTES s).symm ▸ hys)) with h | h
      · exact absurd h hyn
      · exact h
    have hps : (s.take MAX_NOTES ++ s.drop MAX_NOTES).Pairwise (· ≤ ·) := by
      rw [List.take_append_drop]
      exact hsorted
    exact (List.pairwise_append.mp hps).2.2 x hx y hyd
  · exact ⟨hs.sublist (List.erase_sublist n c), hd.sublist (List.erase_sublist n c),
      (List.erase_sublist n c).length_le.trans hl⟩
  · intro hmem
    exact List.erase_of_not_mem hmem

/-- Witness for `chord_buffer_ops` at the full chord [1..8] and note 0:
every hypothesis holds by computation. -/
theorem chord_buffer_ops_witness :
    ((add_note [1, 2, 3, 4, 5, 6, 7, 8] 0).Sorted (· ≤ ·) ∧
      (add_note [1, 2, 3, 4, 5, 6, 7, 8] 0).Nodup ∧
      (add_note [1, 2, 3, 4, 5, 6, 7, 8] 0).length ≤ MAX_NOTES) ∧
    (0 ∈ [1, 2, 3, 4, 5, 6, 7, 8] → add_note [1, 2, 3, 4, 5, 6, 7, 8] 0 = [1, 2, 3, 4, 5, 6, 7, 8]) ∧
    (List.length [1, 2, 3, 4, 5, 6, 7, 8] = MAX_NOTES → 0 ∉ [1, 2, 3, 4, 5, 6, 7, 8] →
      ∀ x ∈ add_note [1, 2, 3, 4, 5, 6, 7, 8] 0, ∀ y ∈ [1, 2, 3, 4, 5, 6, 7, 8] ++ [0],
        y ∉ add_note [1, 2, 3, 4, 5, 6, 7, 8] 0 → x ≤ y) ∧
    ((remove_note [1, 2, 3, 4, 5, 6, 7, 8] 0).Sorted (· ≤ ·) ∧
      (remove_note [1, 2, 3, 4, 5, 6, 7, 8] 0).Nodup ∧
      (remove_note [1, 2, 3, 4, 5, 6, 7, 8] 0).length ≤ MAX_NOTES) ∧
    (0 ∉ [1, 2, 3, 4, 5, 6, 7, 8] → remove_note [1, 2, 3, 4, 5, 6, 7, 8] 0 = [1, 2, 3, 4, 5, 6, 7, 8]) :=
  chord_buffer_ops [1, 2, 3, 4, 5, 6, 7, 8] 0 (by decide) (by decide) (by decide)

/-- **C9** (code bug): on Stop after seven clock pulses the engine emits
only the stale `last_played` note-off (note 60, long released), leaves
note 64 recorded as sounding with no note-off, and resets no pattern
runtime (the pulse accumulator still holds one pulse, i.e. 100 in the
scaled embedding) — despite the source printing that counters were
cleared. -/
theorem stop_keeps_runtime_and_note :
    (runEvents engT1 zeros 0 evsC9).map
      (fun r => (r.2.2.getD 9 [], countOff 64 r.2.2,
        r.1.states.map PatRT.noteOn, r.1.states.map PatRT.tick)) =
      some ([Msg.noteOff 60], 0, [some 64], [100]) := by decide

end TR
